import Mathlib

/-!
Shallow embedding of the UFC odds-scraping pipeline
(src/ufc/scraper/scrape_odds_alt.py, class OddsScraperAlt) and proofs about it.

Modelling conventions:
* A pandas DataFrame is a list of column names plus a list of rows; each row is
  an association list from column name to cell value, mirroring the Python
  dicts the code builds rows from.  pandas semantics used by the code are
  embedded explicitly: building a frame from a list of dicts takes the union
  of the keys in first-appearance order; scalar column assignment
  (df[c] = v) sets the key on every row, appending the column at the end
  when absent; pd.concat(frames, ignore_index=True) appends the row lists
  and takes the union of the column lists in first-appearance order.
* Cell values are strings, exact rationals (for Python floats produced by
  float() on short decimal literals, which are exact), or an opaque run
  timestamp (datetime.datetime.now() is modelled as an opaque Nat).
* Network and parsing effects (requests.get / response.json / BeautifulSoup)
  are oracles passed in as parameters: an Except value that is an error when
  the fetch or parse raises, and otherwise the relevant projection of the
  fetched document (matched elements and their stripped texts).
* Python try/except is modelled with Except: each function has a Body
  returning Except (the code inside the try, where a raise propagates), and
  the function itself pattern-matches the Body, turning errors into the
  degraded return value of the except clause.  The E-suffixed variants
  expose what the function returns to ITS caller as an Except value, so
  "never propagates an exception" is the statement that the E variant always
  returns Except.ok.
-/

/-- Exception value raised by a failing network fetch or parse. -/
structure PyErr where
  msg : String
deriving DecidableEq, Repr

/-- Cell value of the scraped table: a string, an exact rational standing for a
Python float, or the opaque run timestamp (datetime value). -/
inductive Val where
  | s (v : String)
  | q (v : ℚ)
  | t (v : Nat)
deriving DecidableEq, Repr

/-- Bool test of whether pat occurs at the head of s, for Python's
str.startswith. -/
def hasLead : List Char → List Char → Bool
  | [], _ => true
  | _ :: _, [] => false
  | a :: as, b :: bs => a = b && hasLead as bs

/-- Bool test of substring occurrence, for Python's `in` on strings. -/
def hasSub (pat : List Char) : List Char → Bool
  | [] => hasLead pat []
  | b :: bs => hasLead pat (b :: bs) || hasSub pat bs

/-- Python s.startswith(pre). -/
def pyStartsWith (s pre : String) : Bool :=
  hasLead pre.toList s.toList

/-- Python s[:n], a prefix of at most n characters. -/
def pyTake (s : String) (n : Nat) : String :=
  String.mk (s.toList.take n)

/-- Python s.lower() over the ASCII range the code relies on. -/
def pyLower (s : String) : String :=
  String.mk (s.toList.map Char.toLower)

/-- One table row, as the Python dict it is built from: an association list
from column name to value, in insertion order. -/
abbrev Row := List (String × Val)

/-- Keys of a row in insertion order (the dict key view pandas consumes). -/
def rowKeys (r : Row) : List String :=
  r.map Prod.fst

/-- Lookup of a cell by column name (Python dict access / row projection). -/
def Row.get (r : Row) (c : String) : Option Val :=
  (r.find? (fun p => p.1 = c)).map Prod.snd

/-- Python dict assignment d[k] = v: replace the value in place when the key
exists, otherwise append the key at the end. -/
def setKey (k : String) (v : Val) : Row → Row
  | [] => [(k, v)]
  | (k', v') :: rest =>
    if k' = k then (k, v) :: rest else (k', v') :: setKey k v rest

/-- A pandas DataFrame: ordered column list and ordered row list. -/
structure DF where
  cols : List String
  rows : List Row
deriving DecidableEq, Repr

/-- Left-biased union of column lists in first-appearance order, as pandas
computes column sets when frames or records are combined. -/
def unionAppend (l c : List String) : List String :=
  l ++ c.filter (fun x => !(l.contains x))

/-- Column set of a sequence of key lists, in first-appearance order. -/
def concatCols (ls : List (List String)) : List String :=
  ls.foldl unionAppend []

/-- pd.DataFrame(list_of_dicts): columns are the union of the records' keys in
first-appearance order; the records are the rows. -/
def dfOfRecords (rs : List Row) : DF :=
  ⟨concatCols (rs.map rowKeys), rs⟩

/-- pd.DataFrame(columns=cs): the explicitly-empty frame with the given
columns. -/
def emptyDF (cs : List String) : DF :=
  ⟨cs, []⟩

/-- df[c] = v with a scalar v: every row gets the value; the column is
appended at the end when absent. -/
def setColScalar (df : DF) (c : String) (v : Val) : DF :=
  ⟨if df.cols.contains c then df.cols else df.cols ++ [c],
   df.rows.map (setKey c v)⟩

/-- pd.concat(frames, ignore_index=True): rows are appended in order, columns
are the union in first-appearance order. -/
def concatDF (dfs : List DF) : DF :=
  ⟨concatCols (dfs.map DF.cols), (dfs.map DF.rows).flatten⟩

/-- Column list of the per-fight record dicts built by the page-scrape
adapter (lines 261-268) and by the synthetic sample fights. -/
def fightCols : List String :=
  ["event", "fighter1", "fighter2", "fighter1_odds", "fighter2_odds", "result"]

/-- Column list of the record dicts built by the Odds API adapter
(lines 200-209). -/
def apiCols : List String :=
  ["link", "date", "event", "fighter1", "fighter2",
   "fighter1_odds", "fighter2_odds", "result"]

/-- Column list of a page-scrape frame after the aggregator has attached
link and date (lines 149-150). -/
def pageCols : List String :=
  fightCols ++ ["link", "date"]

/-- The fixed nine-column schema of the final table, in the order of the
explicitly-empty frame of lines 166-169. -/
def fixedCols : List String :=
  apiCols ++ ["timestamp"]

/-- Column order obtained when only page-scrape frames are concatenated and
the timestamp is appended. -/
def pageRunCols : List String :=
  pageCols ++ ["timestamp"]

/-! ## Page-scrape adapter (_scrape_event_odds_page, lines 219-279) -/

/-- Value of a string of decimal digits. -/
def digitsToNat (cs : List Char) : Nat :=
  cs.foldl (fun a c => a * 10 + (c.toNat - 48)) 0

/-- re.match of the strict decimal pattern (one or more digits, a dot, one or
more digits, end of string) followed by float(text), line 253-254.  The text
has been stripped, so the end anchor means end of string.  Returns the exact
value of the literal. -/
def parseDecimal (t : String) : Option ℚ :=
  match t.toList.splitOn '.' with
  | [a, b] =>
    if a ≠ [] ∧ b ≠ [] ∧ a.all Char.isDigit ∧ b.all Char.isDigit then
      some (mkRat (digitsToNat a * 10 ^ b.length + digitsToNat b) (10 ^ b.length))
    else none
  | _ => none

/-- The odds-scanning loop of lines 250-259: walk the td cell texts; for each
text matching the decimal pattern, assign its value to fighter1_odds while
that still holds the 1.0 sentinel, otherwise to fighter2_odds if that still
holds 1.0 and then stop; otherwise keep scanning. -/
def scanOdds : List String → ℚ → ℚ → ℚ × ℚ
  | [], a, b => (a, b)
  | t :: ts, a, b =>
    match parseDecimal t with
    | none => scanOdds ts a b
    | some v =>
      if a = 1 then scanOdds ts v b
      else if b = 1 then (a, v)
      else scanOdds ts a b

/-- One row-like element found on an event page: the stripped texts of its
anchor elements whose href matches "fighter", and the stripped texts of its
td cells, each in document order. -/
structure FightRow where
  fighterLinks : List String
  tdTexts : List String
deriving DecidableEq, Repr

/-- Projection of a fetched event page: the row elements matched by
find_all('tr', class_=fight|odd), the fallback row elements matched by
find_all('div', class_=fight|match), and the stripped text of the first h1
element if any. -/
structure EventPage where
  trFightRows : List FightRow
  divFightRows : List FightRow
  h1 : Option String
deriving DecidableEq, Repr

/-- Per-row extraction of lines 238-268: needs at least two fighter links
(first two become fighter1/fighter2), scans the cells for odds, and builds
the fight record dict.  Rows with fewer than two fighter links are skipped. -/
def extractFight (eventName : String) (row : FightRow) : Option Row :=
  match row.fighterLinks with
  | f1 :: f2 :: _ =>
    let odds := scanOdds row.tdTexts 1 1
    some [("event", Val.s eventName),
          ("fighter1", Val.s f1),
          ("fighter2", Val.s f2),
          ("fighter1_odds", Val.q odds.1),
          ("fighter2_odds", Val.q odds.2),
          ("result", Val.s "")]
  | _ => none

/-- The fixed synthetic sample fight records returned by
_scrape_oddsshark_event (lines 281-319). -/
def sampleFightRows : List Row :=
  [[("event", Val.s "UFC 304: Edwards vs Muhammad 2"),
    ("fighter1", Val.s "Leon Edwards"),
    ("fighter2", Val.s "Belal Muhammad"),
    ("fighter1_odds", Val.q (mkRat 185 100)),
    ("fighter2_odds", Val.q (mkRat 195 100)),
    ("result", Val.s "")],
   [("event", Val.s "UFC 304: Edwards vs Muhammad 2"),
    ("fighter1", Val.s "Tom Aspinall"),
    ("fighter2", Val.s "Curtis Blaydes"),
    ("fighter1_odds", Val.q (mkRat 145 100)),
    ("fighter2_odds", Val.q (mkRat 275 100)),
    ("result", Val.s "")],
   [("event", Val.s "UFC Fight Night: Sandhagen vs Nurmagomedov"),
    ("fighter1", Val.s "Cory Sandhagen"),
    ("fighter2", Val.s "Umar Nurmagomedov"),
    ("fighter1_odds", Val.q (mkRat 210 100)),
    ("fighter2_odds", Val.q (mkRat 175 100)),
    ("result", Val.s "")],
   [("event", Val.s "UFC Fight Night: Sandhagen vs Nurmagomedov"),
    ("fighter1", Val.s "Shara Magomedov"),
    ("fighter2", Val.s "Michal Oleksiejczuk"),
    ("fighter1_odds", Val.q (mkRat 165 100)),
    ("fighter2_odds", Val.q (mkRat 225 100)),
    ("result", Val.s "")]]

/-- The DataFrame built by _scrape_oddsshark_event. -/
def sampleFightsDF : DF :=
  dfOfRecords sampleFightRows

/-- The parsing part of _scrape_event_odds_page on a fetched page
(lines 229-274): pick tr rows, or div rows when none; extract each fight
(skipping failing rows); return a frame only when at least one fight was
extracted. -/
def parsePageFights (page : EventPage) : Option DF :=
  let rows := match page.trFightRows with
    | [] => page.divFightRows
    | l => l
  let eventName := match page.h1 with
    | some h => h
    | none => "UFC Event"
  match rows.filterMap (extractFight eventName) with
  | [] => none
  | fights => some (dfOfRecords fights)

/-- Body of _scrape_event_odds_page, i.e. the code inside its try block: a
synthetic locator short-circuits to the sample data; otherwise the fetch can
raise, and a fetched page is parsed. -/
def scrape_event_odds_pageBody (url : String) (fetch : Except PyErr EventPage) :
    Except PyErr (Option DF) :=
  if pyStartsWith url "oddsshark_" then .ok (some sampleFightsDF)
  else
    match fetch with
    | .error e => .error e
    | .ok page => .ok (parsePageFights page)

/-- _scrape_event_odds_page as seen by its caller: any exception in the body
is caught (lines 276-279) and turned into None. -/
def scrape_event_odds_page (url : String) (fetch : Except PyErr EventPage) :
    Option DF :=
  match scrape_event_odds_pageBody url fetch with
  | .ok v => v
  | .error _ => none

/-- _scrape_event_odds_page with its exception behaviour exposed: what the
function returns to its caller, as an Except value. -/
def scrape_event_odds_pageE (url : String) (fetch : Except PyErr EventPage) :
    Except PyErr (Option DF) :=
  match scrape_event_odds_pageBody url fetch with
  | .ok v => .ok v
  | .error _ => .ok none

/-! ## Event discovery (get_individual_event_urls, lines 44-123) -/

/-- A discovered event: the dict with keys Date, Event and url built by
`get_individual_event_urls` and `_get_events_from_oddsshark`. -/
structure DiscEvent where
  date : String
  name : String
  url : String
deriving DecidableEq, Repr

/-- Length of the digit run at the head of the character list. -/
def digitRun (cs : List Char) : Nat :=
  (cs.takeWhile Char.isDigit).length

/-- Greedy candidate splits for a digit quantifier with the given bounds:
take k leading digits for k from the largest available down to lo, the
backtracking order of a greedy regex quantifier. -/
def numCands (lo hi : Nat) (cs : List Char) : List (List Char × List Char) :=
  let d := min (digitRun cs) hi
  (List.range (d + 1)).reverse.filterMap fun k =>
    if lo ≤ k then some (cs.take k, cs.drop k) else none

/-- One date separator, slash or hyphen. -/
def matchSep : List Char → Option (Char × List Char)
  | [] => none
  | c :: rest => if c = '/' ∨ c = '-' then some (c, rest) else none

/-- Attempt of the date regex of line 104 (one or two digits, separator, one
or two digits, separator, two to four digits) at the head of the list, with
greedy quantifiers and backtracking; returns the matched characters. -/
def dateMatchAt (cs : List Char) : Option (List Char) :=
  (numCands 1 2 cs).findSome? fun p1 =>
    (matchSep p1.2).bind fun s1 =>
      (numCands 1 2 s1.2).findSome? fun p2 =>
        (matchSep p2.2).bind fun s2 =>
          (numCands 2 4 s2.2).findSome? fun p3 =>
            some (p1.1 ++ [s1.1] ++ p2.1 ++ [s2.1] ++ p3.1)

/-- All suffixes scan of re.search: the leftmost position where the date
pattern matches, returning the matched text. -/
def dateSearchAux : List Char → Option (List Char)
  | [] => none
  | c :: rest =>
    match dateMatchAt (c :: rest) with
    | some m => some m
    | none => dateSearchAux rest

/-- re.search of the loose date pattern over an element text (line 104). -/
def dateSearch (t : String) : Option String :=
  (dateSearchAux t.toList).map String.mk

/-- Element filter of line 102: text is non-empty, contains "ufc" after
lowercasing, and is longer than five characters. -/
def sharkFilter (t : String) : Bool :=
  t ≠ "" && hasSub "ufc".toList (pyLower t).toList && t.toList.length > 5

/-- The CSS selector list of lines 88-96. -/
def selectors : List String :=
  ["div[class*=\"event\"]", "div[class*=\"fight\"]", "div[class*=\"match\"]",
   "tr[class*=\"event\"]", "tr[class*=\"fight\"]", ".event-row", ".fight-row"]

/-- Projection of the fetched OddsShark listings page: for each selector, the
stripped texts of the elements it matches, in document order. -/
structure SharkPage where
  select : String → List String

/-- Event dict built at lines 107-111 for a passing element text, where n is
the number of events collected so far: date from the loose regex or the
current date formatted as day/short-month/two-digit-year (nowStr), name
truncated to 100 characters, and a synthetic per-index locator. -/
def sharkEventOf (nowStr : String) (n : Nat) (t : String) : DiscEvent :=
  ⟨(dateSearch t).getD nowStr, pyTake t 100, "oddsshark_" ++ toString n⟩

/-- Inner element loop of lines 100-114 over one selector's elements
(already capped at five): append an event per passing text, stopping as soon
as ten events have been collected. -/
def sharkElemLoop (nowStr : String) : List String → List DiscEvent → List DiscEvent
  | [], acc => acc
  | t :: ts, acc =>
    if sharkFilter t then
      let acc2 := acc ++ [sharkEventOf nowStr acc.length t]
      if 10 ≤ acc2.length then acc2 else sharkElemLoop nowStr ts acc2
    else sharkElemLoop nowStr ts acc

/-- Outer selector loop of lines 98-117: per selector, process at most five
matched elements, stopping once ten events have been collected. -/
def sharkSelLoop (nowStr : String) (page : SharkPage) :
    List String → List DiscEvent → List DiscEvent
  | [], acc => acc
  | s :: ss, acc =>
    let acc2 := sharkElemLoop nowStr ((page.select s).take 5) acc
    if 10 ≤ acc2.length then acc2 else sharkSelLoop nowStr page ss acc2

/-- Extraction performed on a successfully fetched OddsShark page. -/
def extractSharkEvents (page : SharkPage) (nowStr : String) : List DiscEvent :=
  sharkSelLoop nowStr page selectors []

/-- Body of _get_events_from_oddsshark, the code inside its try block
(lines 77-119): the fetch/parse can raise; a fetched page is processed. -/
def get_events_from_oddssharkBody (fetch : Except PyErr SharkPage)
    (nowStr : String) : Except PyErr (List DiscEvent) :=
  match fetch with
  | .error e => .error e
  | .ok page => .ok (extractSharkEvents page nowStr)

/-- _get_events_from_oddsshark as seen by its caller: its except clause
(lines 121-123) turns any exception into the empty list. -/
def get_events_from_oddsshark (fetch : Except PyErr SharkPage)
    (nowStr : String) : List DiscEvent :=
  match get_events_from_oddssharkBody fetch nowStr with
  | .ok evs => evs
  | .error _ => []

/-- _get_events_from_oddsshark with its exception behaviour exposed. -/
def get_events_from_oddssharkE (fetch : Except PyErr SharkPage)
    (nowStr : String) : Except PyErr (List DiscEvent) :=
  match get_events_from_oddssharkBody fetch nowStr with
  | .ok evs => .ok evs
  | .error _ => .ok []

/-- The fixed two-item synthetic sample event set of lines 59-70. -/
def sampleEvents : List DiscEvent :=
  [⟨"19 Jul 25", "UFC 304: Edwards vs Muhammad 2", "oddsshark_sample_1"⟩,
   ⟨"27 Jul 25", "UFC Fight Night: Sandhagen vs Nurmagomedov",
    "oddsshark_sample_2"⟩]

/-- get_individual_event_urls (lines 44-73): try the OddsShark provider (its
own except already degrades to the empty list, and the outer try of
lines 49-54 catches nothing further since the inner call is total);
substitute the synthetic sample events when no event was found. -/
def get_individual_event_urls (fetch : Except PyErr SharkPage)
    (nowStr : String) : List DiscEvent :=
  match get_events_from_oddsshark fetch nowStr with
  | [] => sampleEvents
  | evs => evs

/-- get_individual_event_urls with its exception behaviour exposed: the outer
try of lines 49-54 catches any exception and leaves events empty, so the
sample fallback still applies. -/
def get_individual_event_urlsE (fetch : Except PyErr SharkPage)
    (nowStr : String) : Except PyErr (List DiscEvent) :=
  match get_events_from_oddssharkE fetch nowStr with
  | .ok [] => .ok sampleEvents
  | .ok evs => .ok evs
  | .error _ => .ok sampleEvents

/-! ## Live API adapter (_scrape_from_odds_api, lines 171-217) -/

/-- One outcome of a market in the Odds API JSON; the fields read with .get
may be absent. -/
structure Outcome where
  oname : Option String
  price : Option ℚ
deriving DecidableEq, Repr

/-- One market of a bookmaker. -/
structure Market where
  key : Option String
  outcomes : Option (List Outcome)
deriving DecidableEq, Repr

/-- One bookmaker of an event. -/
structure Bookmaker where
  markets : Option (List Market)
deriving DecidableEq, Repr

/-- One event of the Odds API payload. -/
structure ApiEvent where
  id : Option String
  sport_title : Option String
  commence_time : Option String
  bookmakers : Option (List Bookmaker)
deriving DecidableEq, Repr

/-- The record dict appended at lines 200-209 for a qualifying market, built
from the event and the first two outcomes. -/
def apiRecord (e : ApiEvent) (o1 o2 : Outcome) : Row :=
  [("link", Val.s ("odds_api_" ++ e.id.getD "")),
   ("date", Val.s (let ct := e.commence_time.getD ""
                   if ct = "" then "" else pyTake ct 10)),
   ("event", Val.s (e.sport_title.getD "UFC Event")),
   ("fighter1", Val.s (o1.oname.getD "")),
   ("fighter2", Val.s (o2.oname.getD "")),
   ("fighter1_odds", Val.q (o1.price.getD 1)),
   ("fighter2_odds", Val.q (o2.price.getD 1)),
   ("result", Val.s "")]

/-- Records produced for one payload event (lines 187-209): only when the
bookmakers list is present and non-empty, and then only from the first
bookmaker; one record per market whose key is h2h and which has at least two
outcomes, taking the first two outcomes in listed order. -/
def apiEventRecords (e : ApiEvent) : List Row :=
  match e.bookmakers with
  | some (b :: _) =>
    (b.markets.getD []).filterMap fun m =>
      let outs := m.outcomes.getD []
      if m.key = some "h2h" ∧ 2 ≤ outs.length then
        match outs with
        | o1 :: o2 :: _ => some (apiRecord e o1 o2)
        | _ => none
      else none
  | _ => []

/-- Body of _scrape_from_odds_api, the code inside its try block: the fetch
and JSON decode can raise; otherwise records are collected over all payload
events, and a frame is returned only when at least one record exists. -/
def scrape_from_odds_apiBody (fetch : Except PyErr (List ApiEvent)) :
    Except PyErr (Option DF) :=
  match fetch with
  | .error e => .error e
  | .ok data =>
    match (data.map apiEventRecords).flatten with
    | [] => .ok none
    | results => .ok (some (dfOfRecords results))

/-- _scrape_from_odds_api as seen by its caller: any exception is caught
(lines 214-215) and the function returns None (line 217). -/
def scrape_from_odds_api (fetch : Except PyErr (List ApiEvent)) : Option DF :=
  match scrape_from_odds_apiBody fetch with
  | .ok v => v
  | .error _ => none

/-- _scrape_from_odds_api with its exception behaviour exposed. -/
def scrape_from_odds_apiE (fetch : Except PyErr (List ApiEvent)) :
    Except PyErr (Option DF) :=
  match scrape_from_odds_apiBody fetch with
  | .ok v => .ok v
  | .error _ => .ok none

/-! ## Aggregator (scrape_all_event_odds, lines 125-169) -/

/-- Metadata attachment of lines 148-151: a non-empty page result gets the
event's locator and date as new link and date columns (in that order); an
absent or empty result contributes nothing. -/
def attachMeta (e : DiscEvent) (r : Option DF) : Option DF :=
  match r with
  | some df =>
    match df.rows with
    | [] => none
    | _ => some (setColScalar (setColScalar df "link" (Val.s e.url))
                   "date" (Val.s e.date))
  | none => none

/-- The per-event loop of lines 140-157, indexed as iterrows indexes a fresh
frame (0, 1, ...): in test mode the loop breaks at index 2; each non-broken
iteration invokes the page adapter (the first component collects the staged
frames, the second records the locators passed to _scrape_event_odds_page).
The per-event try/except of lines 146-157 catches any exception and
continues; in this model the body is total, so no iteration is lost. -/
def loopEvents (test : Bool) (pf : String → Except PyErr EventPage) :
    Nat → List DiscEvent → List DF × List String
  | _, [] => ([], [])
  | i, e :: es =>
    if test ∧ 2 ≤ i then ([], [])
    else
      let rest := loopEvents test pf (i + 1) es
      match attachMeta e (scrape_event_odds_page e.url (pf e.url)) with
      | some df => (df :: rest.1, e.url :: rest.2)
      | none => (rest.1, e.url :: rest.2)

/-- The scraped_results list as it stands at line 159: the Live API frame
(when a key is configured and the adapter returned one) followed by the
page-scrape frames in event order. -/
def stagedFrames (test apiKey : Bool)
    (apiFetch : Except PyErr (List ApiEvent))
    (pf : String → Except PyErr EventPage) (evs : List DiscEvent) : List DF :=
  (if apiKey then
    match scrape_from_odds_api apiFetch with
    | some df => [df]
    | none => []
  else []) ++ (loopEvents test pf 0 evs).1

/-- scrape_all_event_odds (lines 125-169).  Inputs: the test flag, whether an
API key is configured, the two fetch oracles, the discovered event list
(None when get_individual_event_urls never ran) and the opaque construction
timestamp self.curr_time.  Output: the value of self.event_odds after the
call; None models the early return of lines 129-131, which leaves
self.event_odds unset. -/
def scrape_all_event_odds (test apiKey : Bool)
    (apiFetch : Except PyErr (List ApiEvent))
    (pf : String → Except PyErr EventPage)
    (eventLinks : Option (List DiscEvent)) (currTime : Nat) : Option DF :=
  match eventLinks with
  | none => none
  | some [] => none
  | some evs =>
    match stagedFrames test apiKey apiFetch pf evs with
    | [] => some (emptyDF fixedCols)
    | staged => some (setColScalar (concatDF staged) "timestamp"
        (Val.t currTime))

/-- scrape_all_event_odds with its exception behaviour exposed: the function
has no try of its own, but its only fallible callees are the two adapters,
whose exposed behaviour is used here. -/
def scrape_all_event_oddsE (test apiKey : Bool)
    (apiFetch : Except PyErr (List ApiEvent))
    (pf : String → Except PyErr EventPage)
    (eventLinks : Option (List DiscEvent)) (currTime : Nat) :
    Except PyErr (Option DF) :=
  match eventLinks with
  | none => .ok none
  | some [] => .ok none
  | some evs =>
    (if apiKey then
      (scrape_from_odds_apiE apiFetch).map fun r =>
        match r with
        | some df => [df]
        | none => []
    else .ok []).bind fun apiStage =>
      match apiStage ++ (loopEvents test pf 0 evs).1 with
      | [] => .ok (some (emptyDF fixedCols))
      | staged => .ok (some (setColScalar (concatDF staged) "timestamp"
          (Val.t currTime)))

/-- The locators on which the aggregator invokes the page-scrape adapter
during one run. -/
def pageScrapeCalls (test : Bool) (pf : String → Except PyErr EventPage)
    (eventLinks : Option (List DiscEvent)) : List String :=
  match eventLinks with
  | none => []
  | some evs => (loopEvents test pf 0 evs).2

/-! ## Output writer (write_data, lines 321-329) and full pipeline -/

/-- Rendering of one cell for CSV output. -/
def valCsv : Val → String
  | .s v => v
  | .q v => toString v
  | .t v => toString v

/-- Rendering of the frame produced by to_csv(index=False): header line then
one line per row, cells in column order. -/
def toCsv (df : DF) : String :=
  String.intercalate "\n"
    ((String.intercalate "," df.cols) ::
      df.rows.map fun r =>
        String.intercalate "," (df.cols.map fun c =>
          match r.get c with
          | some v => valCsv v
          | none => ""))

/-- A flat model of the filesystem: path to contents, later writes first. -/
abbrev FileSys := List (String × String)

/-- write_data (lines 321-329): with a scrape result present, write the CSV
to the fixed path (creating or overwriting); with self.event_odds still None,
only print and leave the filesystem untouched. -/
def write_data (eventOdds : Option DF) (fs : FileSys) : FileSys :=
  match eventOdds with
  | some df => ("./data/odds_raw.csv", toCsv df) :: fs
  | none => fs

/-- One full pipeline run as wired in the main block (lines 341-350):
discovery followed by aggregation, with the discovered events handed to the
aggregator as self.event_links. -/
def runPipeline (sharkFetch : Except PyErr SharkPage) (nowStr : String)
    (test apiKey : Bool) (apiFetch : Except PyErr (List ApiEvent))
    (pf : String → Except PyErr EventPage) (currTime : Nat) : Option DF :=
  scrape_all_event_odds test apiKey apiFetch pf
    (some (get_individual_event_urls sharkFetch nowStr)) currTime

/-! ## Spec-side reformulations used to state the ordering claim -/

/-- The events the aggregator considers, per the spec of the test-mode cap:
all discovered events, or the first two in test mode. -/
def specConsidered (test : Bool) (evs : List DiscEvent) : List DiscEvent :=
  if test then evs.take 2 else evs

/-- The rows the Live API adapter contributes to a run, per the spec: the
rows of its frame when an API key is configured and the adapter returned a
frame, and nothing otherwise. -/
def specApiRows (apiKey : Bool) (apiFetch : Except PyErr (List ApiEvent)) :
    List Row :=
  if apiKey then
    match scrape_from_odds_api apiFetch with
    | some df => df.rows
    | none => []
  else []

/-- The rows the page-scrape adapter contributes to a run, per the spec: per
considered event in discovery order, the rows of its frame (with link and
date attached), concatenated. -/
def specPageRows (test : Bool) (pf : String → Except PyErr EventPage)
    (evs : List DiscEvent) : List Row :=
  (((specConsidered test evs).filterMap fun e =>
      attachMeta e (scrape_event_odds_page e.url (pf e.url))).map
    DF.rows).flatten

/-! ## Helper lemmas -/

lemma contains_of_mem {l : List String} {a : String} (h : a ∈ l) :
    l.contains a = true := by
  simpa using h

lemma setKey_get (k : String) (v : Val) (r : Row) :
    Row.get (setKey k v r) k = some v := by
  induction r with
  | nil => simp [setKey, Row.get, List.find?]
  | cons p rest ih =>
    by_cases h : p.1 = k
    · simp [setKey, h, Row.get, List.find?]
    · simp only [setKey]
      rw [if_neg h]
      simpa [Row.get, List.find?, h] using ih

lemma unionAppend_nil (c : List String) : unionAppend [] c = c := by
  simp [unionAppend, List.contains]

lemma unionAppend_of_subset {l c : List String}
    (h : ∀ x ∈ c, l.contains x = true) : unionAppend l c = l := by
  have : c.filter (fun x => !(l.contains x)) = [] := by
    refine List.filter_eq_nil_iff.mpr fun a ha => ?_
    simpa using h a ha
  unfold unionAppend
  rw [this, List.append_nil]

lemma foldl_unionAppend_const {c₀ : List String} :
    ∀ {ls : List (List String)},
      (∀ c ∈ ls, ∀ x ∈ c, c₀.contains x = true) →
      List.foldl unionAppend c₀ ls = c₀ := by
  intro ls
  induction ls with
  | nil => intro; rfl
  | cons c cs ih =>
    intro h
    have hc : unionAppend c₀ c = c₀ :=
      unionAppend_of_subset (h c (List.mem_cons_self c cs))
    simpa [List.foldl_cons, hc] using
      ih fun d hd => h d (List.mem_cons_of_mem c hd)

lemma concatCols_cons (c₀ : List String) (ls : List (List String)) :
    concatCols (c₀ :: ls) = List.foldl unionAppend c₀ ls := by
  simp [concatCols, List.foldl_cons, unionAppend_nil]

lemma dfOfRecords_cols_const {rs : List Row} {k : List String}
    (hne : rs ≠ []) (hk : ∀ r ∈ rs, rowKeys r = k) :
    (dfOfRecords rs).cols = k := by
  match rs, hne with
  | r :: rest, _ =>
    have hr : rowKeys r = k := hk r (List.mem_cons_self r rest)
    have hrest : ∀ c ∈ rest.map rowKeys, ∀ x ∈ c, k.contains x = true := by
      intro c hc x hx
      rcases List.mem_map.mp hc with ⟨r', hr', rfl⟩
      exact contains_of_mem (by
        rw [hk r' (List.mem_cons_of_mem r hr')] at hx
        exact hx)
    simp only [dfOfRecords, List.map_cons, concatCols_cons, hr]
    exact foldl_unionAppend_const hrest

lemma apiRecord_keys (e : ApiEvent) (o1 o2 : Outcome) :
    rowKeys (apiRecord e o1 o2) = apiCols := rfl

lemma apiEventRecords_keys {e : ApiEvent} {r : Row}
    (h : r ∈ apiEventRecords e) : rowKeys r = apiCols := by
  unfold apiEventRecords at h
  match hb : e.bookmakers with
  | none => rw [hb] at h; cases h
  | some [] => rw [hb] at h; cases h
  | some (b :: bs) =>
    rw [hb] at h
    rcases List.mem_filterMap.mp h with ⟨m, -, hm⟩
    dsimp only at hm
    split at hm
    · split at hm
      · cases hm; rfl
      · cases hm
    · cases hm

lemma scrape_from_odds_api_cols {fetch : Except PyErr (List ApiEvent)}
    {df : DF} (h : scrape_from_odds_api fetch = some df) :
    df.cols = apiCols := by
  unfold scrape_from_odds_api scrape_from_odds_apiBody at h
  match fetch with
  | .error e => cases h
  | .ok data =>
    dsimp only at h
    match hres : (data.map apiEventRecords).flatten with
    | [] => rw [hres] at h; cases h
    | r :: rest =>
      rw [hres] at h
      cases h
      refine dfOfRecords_cols_const (by simp) ?_
      intro r' hr'
      rw [← hres] at hr'
      rcases List.mem_flatten.mp hr' with ⟨l, hl, hrl⟩
      rcases List.mem_map.mp hl with ⟨ev, -, rfl⟩
      exact apiEventRecords_keys hrl

lemma extractFight_keys {en : String} {row : FightRow} {r : Row}
    (h : extractFight en row = some r) : rowKeys r = fightCols := by
  unfold extractFight at h
  match hl : row.fighterLinks with
  | [] => rw [hl] at h; cases h
  | [f] => rw [hl] at h; cases h
  | f1 :: f2 :: rest => rw [hl] at h; cases h; rfl

lemma parsePageFights_cols {p : EventPage} {df : DF}
    (h : parsePageFights p = some df) : df.cols = fightCols := by
  unfold parsePageFights at h
  dsimp only at h
  split at h
  · cases h
  · rename_i hne
    cases h
    refine dfOfRecords_cols_const hne ?_
    intro r hr
    rcases List.mem_filterMap.mp hr with ⟨row, -, hrow⟩
    exact extractFight_keys hrow

lemma scrape_event_odds_pageBody_cols {url : String}
    {fetch : Except PyErr EventPage} {df : DF}
    (h : scrape_event_odds_pageBody url fetch = .ok (some df)) :
    df.cols = fightCols := by
  unfold scrape_event_odds_pageBody at h
  split at h
  · cases h; decide
  · match fetch with
    | .error e => cases h
    | .ok page =>
      injection h with h2
      exact parsePageFights_cols h2

lemma scrape_event_odds_page_cols {url : String}
    {fetch : Except PyErr EventPage} {df : DF}
    (h : scrape_event_odds_page url fetch = some df) :
    df.cols = fightCols := by
  unfold scrape_event_odds_page at h
  split at h
  · rename_i v hb
    rw [h] at hb
    exact scrape_event_odds_pageBody_cols hb
  · cases h

lemma attachMeta_cols {e : DiscEvent} {url : String}
    {fetch : Except PyErr EventPage} {df : DF}
    (h : attachMeta e (scrape_event_odds_page url fetch) = some df) :
    df.cols = pageCols := by
  unfold attachMeta at h
  split at h
  · rename_i d hp
    have hd : d.cols = fightCols := scrape_event_odds_page_cols hp
    split at h
    · cases h
    · cases h
      simp only [setColScalar, hd]
      decide
  · cases h

lemma loopEvents_frames_cols {test : Bool} {pf : String → Except PyErr EventPage} :
    ∀ {evs : List DiscEvent} {i : Nat} {df : DF},
      df ∈ (loopEvents test pf i evs).1 → df.cols = pageCols := by
  intro evs
  induction evs with
  | nil => intro i df h; simp [loopEvents] at h
  | cons e es ih =>
    intro i df h
    unfold loopEvents at h
    split at h
    · simp at h
    · split at h
      · rename_i d hm
        rcases List.mem_cons.mp h with rfl | h
        · exact attachMeta_cols hm
        · exact ih h
      · exact ih h

lemma cols_pair_sub {a b : List String}
    (ha : a = apiCols ∨ a = pageCols) (hb : b = apiCols ∨ b = pageCols) :
    ∀ y ∈ b, a.contains y = true := by
  rcases ha with rfl | rfl <;> rcases hb with rfl | rfl <;> decide

lemma stagedFrames_cols {test apiKey : Bool}
    {apiFetch : Except PyErr (List ApiEvent)}
    {pf : String → Except PyErr EventPage} {evs : List DiscEvent} :
    ∀ d ∈ stagedFrames test apiKey apiFetch pf evs,
      d.cols = apiCols ∨ d.cols = pageCols := by
  intro d hd
  rcases List.mem_append.mp hd with hd | hd
  · left
    split at hd
    · split at hd
      · rcases List.mem_singleton.mp hd with rfl
        exact scrape_from_odds_api_cols (by assumption)
      · cases hd
    · cases hd
  · right
    exact loopEvents_frames_cols hd

lemma concat_timestamp_cols {staged : List DF} {x : DF} {xs : List DF}
    {t : Nat} (hx : staged = x :: xs)
    (hall : ∀ d ∈ staged, d.cols = apiCols ∨ d.cols = pageCols) :
    (setColScalar (concatDF staged) "timestamp" (Val.t t)).cols
      = x.cols ++ ["timestamp"] := by
  have hcols : (concatDF staged).cols = x.cols := by
    rw [concatDF, hx]
    simp only [List.map_cons, concatCols_cons]
    refine foldl_unionAppend_const ?_
    intro c hc y hy
    rcases List.mem_map.mp hc with ⟨d, hd, rfl⟩
    refine cols_pair_sub ?_ ?_ y hy
    · exact hall x (hx ▸ List.mem_cons_self x xs)
    · exact hall d (hx ▸ List.mem_cons_of_mem x hd)
  have hxcols : x.cols = apiCols ∨ x.cols = pageCols :=
    hall x (hx ▸ List.mem_cons_self x xs)
  have hts : x.cols.contains "timestamp" = false := by
    rcases hxcols with hxc | hxc <;> rw [hxc] <;> decide
  simp only [setColScalar, hcols, hts]
  rfl

lemma result_cols_dichotomy {test apiKey : Bool}
    {apiFetch : Except PyErr (List ApiEvent)}
    {pf : String → Except PyErr EventPage}
    {links : Option (List DiscEvent)} {t : Nat} {df : DF}
    (h : scrape_all_event_odds test apiKey apiFetch pf links t = some df) :
    df.cols = fixedCols ∨ df.cols = pageRunCols := by
  unfold scrape_all_event_odds at h
  match links with
  | none => cases h
  | some [] => cases h
  | some (e :: es) =>
    dsimp only at h
    split at h
    · cases h
      left
      rfl
    · rename_i hne
      cases h
      obtain ⟨x, xs, hx⟩ : ∃ x xs,
          stagedFrames test apiKey apiFetch pf (e :: es) = x :: xs := by
        match hs : stagedFrames test apiKey apiFetch pf (e :: es) with
        | [] => exact absurd hs hne
        | x :: xs => exact ⟨x, xs, rfl⟩
      rw [concat_timestamp_cols hx stagedFrames_cols]
      rcases stagedFrames_cols x (hx ▸ List.mem_cons_self x xs) with hxc | hxc <;>
        rw [hxc]
      · left; rfl
      · right; rfl

lemma result_cols_api_first {test apiKey : Bool}
    {apiFetch : Except PyErr (List ApiEvent)}
    {pf : String → Except PyErr EventPage}
    {links : Option (List DiscEvent)} {t : Nat} {df adf : DF}
    (hk : apiKey = true) (ha : scrape_from_odds_api apiFetch = some adf)
    (h : scrape_all_event_odds test apiKey apiFetch pf links t = some df) :
    df.cols = fixedCols := by
  unfold scrape_all_event_odds at h
  match links with
  | none => cases h
  | some [] => cases h
  | some (e :: es) =>
    have hstg : stagedFrames test apiKey apiFetch pf (e :: es)
        = adf :: (loopEvents test pf 0 (e :: es)).1 := by
      unfold stagedFrames
      rw [hk, if_pos rfl, ha]
      rfl
    dsimp only at h
    split at h
    · rename_i hempty
      rw [hstg] at hempty
      cases hempty
    · rename_i hne
      cases h
      rw [concat_timestamp_cols hstg stagedFrames_cols,
        scrape_from_odds_api_cols ha]
      rfl

lemma scrape_all_isSome (test apiKey : Bool)
    (apiFetch : Except PyErr (List ApiEvent))
    (pf : String → Except PyErr EventPage) (t : Nat)
    (e : DiscEvent) (es : List DiscEvent) :
    ∃ df, scrape_all_event_odds test apiKey apiFetch pf (some (e :: es)) t
      = some df := by
  unfold scrape_all_event_odds
  dsimp only
  split
  · exact ⟨_, rfl⟩
  · exact ⟨_, rfl⟩

lemma discovery_ne_nil (fetch : Except PyErr SharkPage) (nowStr : String) :
    get_individual_event_urls fetch nowStr ≠ [] := by
  cases hevs : get_events_from_oddsshark fetch nowStr with
  | nil => simp [get_individual_event_urls, hevs, sampleEvents]
  | cons a as => simp [get_individual_event_urls, hevs]

example : parseDecimal "1.85" = some (mkRat 37 20) := by decide
example : parseDecimal "1.5x" = none := by decide
example : parseDecimal "15" = none := by decide
example : scanOdds ["x", "1.85", "1.95", "9.99"] 1 1 = (mkRat 37 20, mkRat 39 20) := by
  decide
example : scanOdds ["1.0", "2.5", "3.5"] 1 1 = (mkRat 5 2, mkRat 7 2) := by decide

lemma loopEvents_calls_true (pf : String → Except PyErr EventPage) :
    ∀ (evs : List DiscEvent) (i : Nat),
      (loopEvents true pf i evs).2 = (evs.take (2 - i)).map DiscEvent.url := by
  intro evs
  induction evs with
  | nil => intro i; simp [loopEvents]
  | cons e es ih =>
    intro i
    unfold loopEvents
    by_cases hi : 2 ≤ i
    · rw [if_pos ⟨rfl, hi⟩, Nat.sub_eq_zero_of_le hi]
      rfl
    · rw [if_neg (fun hc => hi hc.2)]
      have h2 : 2 - i = (2 - (i + 1)) + 1 := by omega
      rw [h2, List.take_succ_cons, List.map_cons]
      cases hm : attachMeta e (scrape_event_odds_page e.url (pf e.url)) <;>
        simp [hm, ih (i + 1)]

lemma scrape_event_odds_pageE_eq (u : String) (f : Except PyErr EventPage) :
    scrape_event_odds_pageE u f = .ok (scrape_event_odds_page u f) := by
  cases hb : scrape_event_odds_pageBody u f <;>
    simp [scrape_event_odds_pageE, scrape_event_odds_page, hb]

lemma scrape_from_odds_apiE_eq (f : Except PyErr (List ApiEvent)) :
    scrape_from_odds_apiE f = .ok (scrape_from_odds_api f) := by
  cases hb : scrape_from_odds_apiBody f <;>
    simp [scrape_from_odds_apiE, scrape_from_odds_api, hb]

lemma scrape_all_event_oddsE_eq (test apiKey : Bool)
    (apiFetch : Except PyErr (List ApiEvent))
    (pf : String → Except PyErr EventPage)
    (links : Option (List DiscEvent)) (t : Nat) :
    scrape_all_event_oddsE test apiKey apiFetch pf links t
      = .ok (scrape_all_event_odds test apiKey apiFetch pf links t) := by
  match links with
  | none => rfl
  | some [] => rfl
  | some (e :: es) =>
    unfold scrape_all_event_oddsE scrape_all_event_odds stagedFrames
    cases apiKey
    · simp only [Bool.false_eq_true, if_false, Except.bind]
      generalize ([] : List DF) ++ (loopEvents test pf 0 (e :: es)).1 = staged
      cases staged <;> rfl
    · cases hA : scrape_from_odds_api apiFetch
      · simp only [if_true, scrape_from_odds_apiE_eq, hA, Except.map,
          Except.bind]
        generalize ([] : List DF) ++ (loopEvents test pf 0 (e :: es)).1 = staged
        cases staged <;> rfl
      · rename_i adf
        simp only [if_true, scrape_from_odds_apiE_eq, hA, Except.map,
          Except.bind]
        generalize [adf] ++ (loopEvents test pf 0 (e :: es)).1 = staged
        cases staged <;> rfl

/-- Claim C3: whenever the primary event provider yields zero events,
including on any fetch or parse failure, event discovery does not fail the
run and produces exactly the fixed two-item synthetic sample set with event
names UFC 304: Edwards vs Muhammad 2 and UFC Fight Night: Sandhagen vs
Nurmagomedov.  Conjuncts: a failed fetch yields zero events from the
provider; zero provider events force the sample set; discovery never
propagates an exception; and the sample set carries exactly the two
documented names. -/
theorem claim_C3_discovery_synthetic_fallback
    (fetch : Except PyErr SharkPage) (nowStr : String) (err : PyErr) :
    get_events_from_oddsshark (.error err) nowStr = [] ∧
    (get_events_from_oddsshark fetch nowStr = [] →
      get_individual_event_urls fetch nowStr = sampleEvents) ∧
    get_individual_event_urlsE fetch nowStr
      = .ok (get_individual_event_urls fetch nowStr) ∧
    sampleEvents.map DiscEvent.name
      = ["UFC 304: Edwards vs Muhammad 2",
         "UFC Fight Night: Sandhagen vs Nurmagomedov"] := by
  refine ⟨rfl, ?_, ?_, rfl⟩
  · intro h
    simp [get_individual_event_urls, h]
  · cases hb : get_events_from_oddssharkBody fetch nowStr with
    | error e =>
      simp [get_individual_event_urlsE, get_individual_event_urls,
        get_events_from_oddssharkE, get_events_from_oddsshark, hb]
    | ok evs =>
      cases evs <;>
        simp [get_individual_event_urlsE, get_individual_event_urls,
          get_events_from_oddssharkE, get_events_from_oddsshark, hb]

/-- Witness for claim C3 at a concrete failing fetch. -/
theorem claim_C3_witness :
    get_events_from_oddsshark (.error ⟨"timeout"⟩) "29 Jul 25" = [] ∧
    get_individual_event_urls (.error ⟨"timeout"⟩) "29 Jul 25"
      = sampleEvents :=
  ⟨(claim_C3_discovery_synthetic_fallback (.error ⟨"timeout"⟩) "29 Jul 25"
      ⟨"timeout"⟩).1,
   (claim_C3_discovery_synthetic_fallback (.error ⟨"timeout"⟩) "29 Jul 25"
      ⟨"timeout"⟩).2.1 rfl⟩

/-- Claim C1: every pipeline run, including runs in which no source produced
any rows, yields a ScrapeResult whose column set is exactly the nine fixed
columns link, date, event, fighter1, fighter2, fighter1_odds, fighter2_odds,
result, timestamp: never narrower, never wider. -/
theorem claim_C1_fixed_column_set (sharkFetch : Except PyErr SharkPage)
    (nowStr : String) (test apiKey : Bool)
    (apiFetch : Except PyErr (List ApiEvent))
    (pf : String → Except PyErr EventPage) (t : Nat) :
    ∃ df, runPipeline sharkFetch nowStr test apiKey apiFetch pf t = some df ∧
      df.cols.Perm fixedCols := by
  obtain ⟨e, es, hevs⟩ : ∃ e es,
      get_individual_event_urls sharkFetch nowStr = e :: es := by
    match hd : get_individual_event_urls sharkFetch nowStr with
    | [] => exact absurd hd (discovery_ne_nil _ _)
    | e :: es => exact ⟨e, es, rfl⟩
  obtain ⟨df, hdf⟩ := scrape_all_isSome test apiKey apiFetch pf t e es
  refine ⟨df, ?_, ?_⟩
  · unfold runPipeline
    rw [hevs]
    exact hdf
  · rcases result_cols_dichotomy hdf with hc | hc
    · rw [hc]
    · rw [hc]
      decide

/-- Counterexample to claim C2: in a run where only the page-scrape source
contributed rows (no API key, discovery fell back to the synthetic events),
the columns come out in the order event, fighter1, fighter2, fighter1_odds,
fighter2_odds, result, link, date, timestamp, not in the claimed fixed
order. -/
theorem claim_C2_counterexample :
    (runPipeline (.error ⟨"connection refused"⟩) "01 Jan 25" false false
        (.error ⟨"connection refused"⟩)
        (fun _ => .error ⟨"connection refused"⟩) 0).map DF.cols
      = some pageRunCols ∧
    pageRunCols ≠ fixedCols :=
  ⟨by decide, by decide⟩

/-- Claim C2 as amended: the output columns always form one of exactly two
orders: the fixed order link, date, event, fighter1, fighter2,
fighter1_odds, fighter2_odds, result, timestamp, or the page-scrape-first
order event, fighter1, fighter2, fighter1_odds, fighter2_odds, result, link,
date, timestamp; and whenever the Live API adapter contributed a frame, the
fixed order results. -/
theorem claim_C2_amended_column_orders {test apiKey : Bool}
    {apiFetch : Except PyErr (List ApiEvent)}
    {pf : String → Except PyErr EventPage}
    {links : Option (List DiscEvent)} {t : Nat} {df : DF}
    (h : scrape_all_event_odds test apiKey apiFetch pf links t = some df) :
    (df.cols = fixedCols ∨ df.cols = pageRunCols) ∧
    (apiKey = true → ∀ adf, scrape_from_odds_api apiFetch = some adf →
      df.cols = fixedCols) :=
  ⟨result_cols_dichotomy h, fun hk adf ha => result_cols_api_first hk ha h⟩

/-- Witness for the amended claim C2 at a concrete empty run. -/
theorem claim_C2_witness :
    ((emptyDF fixedCols).cols = fixedCols ∨
      (emptyDF fixedCols).cols = pageRunCols) :=
  (claim_C2_amended_column_orders
    (show scrape_all_event_odds false true (Except.ok [])
        (fun _ => Except.error ⟨"unreachable"⟩)
        (some [⟨"19 Jul 25", "Ev", "u1"⟩]) 3 = some (emptyDF fixedCols)
      by decide)).1

/-- Claim C7: with the test flag set, the aggregator invokes the page-scrape
adapter on exactly the first two discovered events (all of them when fewer
than two exist); events at position 2 and beyond are never scraped. -/
theorem claim_C7_test_mode_cap (pf : String → Except PyErr EventPage)
    (evs : List DiscEvent) :
    pageScrapeCalls true pf (some evs) = (evs.take 2).map DiscEvent.url := by
  show (loopEvents true pf 0 evs).2 = (evs.take 2).map DiscEvent.url
  rw [loopEvents_calls_true]

/-- Claim C9: no failure of a network fetch or parse escapes the source
adapters or the aggregator: each adapter returns an ordinary value (an
absent result) on every input including failing fetches, and so does the
aggregator, as stated by their exception-exposing variants always returning
ok. -/
theorem claim_C9_no_exception_propagation (url : String)
    (fetch : Except PyErr EventPage) (test apiKey : Bool)
    (apiFetch : Except PyErr (List ApiEvent))
    (pf : String → Except PyErr EventPage)
    (links : Option (List DiscEvent)) (t : Nat) :
    scrape_event_odds_pageE url fetch
      = .ok (scrape_event_odds_page url fetch) ∧
    scrape_from_odds_apiE apiFetch = .ok (scrape_from_odds_api apiFetch) ∧
    scrape_all_event_oddsE test apiKey apiFetch pf links t
      = .ok (scrape_all_event_odds test apiKey apiFetch pf links t) :=
  ⟨scrape_event_odds_pageE_eq url fetch, scrape_from_odds_apiE_eq apiFetch,
   scrape_all_event_oddsE_eq test apiKey apiFetch pf links t⟩

/-- Claim C10: calling write_data while no scrape result exists writes
nothing: the filesystem is left exactly as it was. -/
theorem claim_C10_write_data_none_noop (fs : FileSys) :
    write_data none fs = fs := rfl

lemma scanOdds_second {v2 : ℚ} {vs : List ℚ} :
    ∀ {ts : List String} {a : ℚ}, a ≠ 1 →
      ts.filterMap parseDecimal = v2 :: vs → scanOdds ts a 1 = (a, v2) := by
  intro ts
  induction ts with
  | nil =>
    intro a ha h
    cases h
  | cons t ts ih =>
    intro a ha h
    rw [List.filterMap_cons] at h
    cases hp : parseDecimal t with
    | none =>
      rw [hp] at h
      simp only [scanOdds, hp]
      exact ih ha h
    | some v =>
      rw [hp] at h
      injection h with hv h
      subst hv
      simp [scanOdds, hp, ha]

lemma scanOdds_first {v1 v2 : ℚ} {vs : List ℚ} :
    ∀ {ts : List String}, v1 ≠ 1 →
      ts.filterMap parseDecimal = v1 :: v2 :: vs →
      scanOdds ts 1 1 = (v1, v2) := by
  intro ts
  induction ts with
  | nil =>
    intro h1 h
    cases h
  | cons t ts ih =>
    intro h1 h
    rw [List.filterMap_cons] at h
    cases hp : parseDecimal t with
    | none =>
      rw [hp] at h
      simp only [scanOdds, hp]
      exact ih h1 h
    | some v =>
      rw [hp] at h
      injection h with hv h
      subst hv
      simp only [scanOdds, hp, if_pos rfl]
      exact scanOdds_second h1 h

/-- Counterexample to claim C4: on a fight row whose cells are 1.0, 2.5, 3.5
(all matching the strict decimal pattern), the first matching value 1.0 does
not become fighter1_odds: the record carries fighter1_odds 2.5 and
fighter2_odds 3.5, so the third matching cell did affect the record.  The
scan keys on the 1.0 sentinel, not on match position. -/
theorem claim_C4_counterexample :
    parseDecimal "1.0" = some 1 ∧
    extractFight "UFC Event" ⟨["Alice", "Bob"], ["1.0", "2.5", "3.5"]⟩
      = some [("event", Val.s "UFC Event"), ("fighter1", Val.s "Alice"),
          ("fighter2", Val.s "Bob"), ("fighter1_odds", Val.q (mkRat 5 2)),
          ("fighter2_odds", Val.q (mkRat 7 2)), ("result", Val.s "")] ∧
    Val.q (mkRat 5 2) ≠ Val.q 1 :=
  ⟨by decide, by decide, by decide⟩

/-- Claim C4 as amended: the scan assigns a matching value to fighter1_odds
while that still holds the 1.0 sentinel, then to fighter2_odds and stops; in
particular, whenever the first matching value is not 1.0, the assignment is
positional exactly as claimed: first match to fighter1_odds, second to
fighter2_odds, and any later matching cells never affect the record. -/
theorem claim_C4_amended_positional (en : String) (row : FightRow)
    (f1 f2 : String) (rest : List String) (v1 v2 : ℚ) (vs : List ℚ)
    (hl : row.fighterLinks = f1 :: f2 :: rest)
    (hv : row.tdTexts.filterMap parseDecimal = v1 :: v2 :: vs)
    (h1 : v1 ≠ 1) :
    extractFight en row = some
      [("event", Val.s en), ("fighter1", Val.s f1), ("fighter2", Val.s f2),
       ("fighter1_odds", Val.q v1), ("fighter2_odds", Val.q v2),
       ("result", Val.s "")] := by
  unfold extractFight
  rw [hl]
  dsimp only
  rw [scanOdds_first h1 hv]

/-- Witness for the amended claim C4 on a concrete row whose first matching
value is 1.85. -/
theorem claim_C4_witness :
    extractFight "UFC 304"
        ⟨["Leon Edwards", "Belal Muhammad"], ["KO", "1.85", "1.95", "9.99"]⟩
      = some [("event", Val.s "UFC 304"),
          ("fighter1", Val.s "Leon Edwards"),
          ("fighter2", Val.s "Belal Muhammad"),
          ("fighter1_odds", Val.q (mkRat 37 20)),
          ("fighter2_odds", Val.q (mkRat 39 20)),
          ("result", Val.s "")] :=
  claim_C4_amended_positional "UFC 304"
    ⟨["Leon Edwards", "Belal Muhammad"], ["KO", "1.85", "1.95", "9.99"]⟩
    "Leon Edwards" "Belal Muhammad" [] (mkRat 37 20) (mkRat 39 20)
    [mkRat 999 100] rfl (by decide) (by decide)

/-- Claim C8: every row of the final ScrapeResult carries the single run
timestamp captured at scraper construction; the timestamp column is constant
across all rows of one run. -/
theorem claim_C8_uniform_timestamp {test apiKey : Bool}
    {apiFetch : Except PyErr (List ApiEvent)}
    {pf : String → Except PyErr EventPage}
    {links : Option (List DiscEvent)} {t : Nat} {df : DF}
    (h : scrape_all_event_odds test apiKey apiFetch pf links t = some df) :
    ∀ r ∈ df.rows, Row.get r "timestamp" = some (Val.t t) := by
  unfold scrape_all_event_odds at h
  match links with
  | none => cases h
  | some [] => cases h
  | some (e :: es) =>
    dsimp only at h
    split at h
    · cases h
      intro r hr
      simp [emptyDF] at hr
    · rename_i hne
      cases h
      intro r hr
      simp only [setColScalar] at hr
      rcases List.mem_map.mp hr with ⟨r0, -, rfl⟩
      exact setKey_get _ _ _

/-- Witness for claim C8 on a concrete one-row run. -/
theorem claim_C8_witness :
    Row.get [("event", Val.s "UFC Event"), ("fighter1", Val.s "A"),
        ("fighter2", Val.s "B"), ("fighter1_odds", Val.q 1),
        ("fighter2_odds", Val.q 1), ("result", Val.s ""),
        ("link", Val.s "http-x"), ("date", Val.s "19 Jul 25"),
        ("timestamp", Val.t 42)] "timestamp" = some (Val.t 42) :=
  claim_C8_uniform_timestamp
    (show scrape_all_event_odds false false (Except.error ⟨"offline"⟩)
        (fun _ => Except.ok ⟨[⟨["A", "B"], []⟩], [], none⟩)
        (some [⟨"19 Jul 25", "Ev", "http-x"⟩]) 42
      = some ⟨pageRunCols,
          [[("event", Val.s "UFC Event"), ("fighter1", Val.s "A"),
            ("fighter2", Val.s "B"), ("fighter1_odds", Val.q 1),
            ("fighter2_odds", Val.q 1), ("result", Val.s ""),
            ("link", Val.s "http-x"), ("date", Val.s "19 Jul 25"),
            ("timestamp", Val.t 42)]]⟩
      by decide)
    [("event", Val.s "UFC Event"), ("fighter1", Val.s "A"),
     ("fighter2", Val.s "B"), ("fighter1_odds", Val.q 1),
     ("fighter2_odds", Val.q 1), ("result", Val.s ""),
     ("link", Val.s "http-x"), ("date", Val.s "19 Jul 25"),
     ("timestamp", Val.t 42)] (by decide)

/-- Claim C6: an API payload of one event with one bookmaker holding one
h2h market with exactly two outcomes makes the Live API adapter emit exactly
one record, whose fighter1 side comes from the first listed outcome and
whose fighter2 side comes from the second. -/
theorem claim_C6_api_one_market (e : ApiEvent) (b : Bookmaker) (m : Market)
    (o1 o2 : Outcome) (hb : e.bookmakers = some [b])
    (hm : b.markets = some [m]) (hk : m.key = some "h2h")
    (ho : m.outcomes = some [o1, o2]) :
    ∃ df, scrape_from_odds_api (.ok [e]) = some df ∧
      df.rows.length = 1 ∧
      ∀ r ∈ df.rows,
        Row.get r "fighter1" = some (Val.s (o1.oname.getD "")) ∧
        Row.get r "fighter1_odds" = some (Val.q (o1.price.getD 1)) ∧
        Row.get r "fighter2" = some (Val.s (o2.oname.getD "")) ∧
        Row.get r "fighter2_odds" = some (Val.q (o2.price.getD 1)) := by
  have hrec : apiEventRecords e = [apiRecord e o1 o2] := by
    unfold apiEventRecords
    rw [hb]
    dsimp only
    rw [hm]
    simp [hk, ho]
  refine ⟨dfOfRecords [apiRecord e o1 o2], ?_, rfl, ?_⟩
  · unfold scrape_from_odds_api scrape_from_odds_apiBody
    dsimp only
    rw [List.map_cons, List.map_nil, hrec]
    rfl
  · intro r hr
    rcases List.mem_singleton.mp hr with rfl
    exact ⟨rfl, rfl, rfl, rfl⟩

/-- Witness for claim C6 on a concrete one-event payload. -/
theorem claim_C6_witness :
    ((scrape_from_odds_api (Except.ok [⟨some "id1", some "MMA",
        some "2025-07-19T00:00:00Z",
        some [⟨some [⟨some "h2h",
          some [⟨some "Leon Edwards", some (mkRat 3 2)⟩,
                ⟨some "Belal Muhammad", some (mkRat 5 2)⟩]⟩]⟩]⟩])).map
      (fun df => df.rows.length)) = some 1 := by
  obtain ⟨df, hdf, hlen, -⟩ :=
    claim_C6_api_one_market
      ⟨some "id1", some "MMA", some "2025-07-19T00:00:00Z",
        some [⟨some [⟨some "h2h",
          some [⟨some "Leon Edwards", some (mkRat 3 2)⟩,
                ⟨some "Belal Muhammad", some (mkRat 5 2)⟩]⟩]⟩]⟩
      ⟨some [⟨some "h2h",
        some [⟨some "Leon Edwards", some (mkRat 3 2)⟩,
              ⟨some "Belal Muhammad", some (mkRat 5 2)⟩]⟩]⟩
      ⟨some "h2h",
        some [⟨some "Leon Edwards", some (mkRat 3 2)⟩,
              ⟨some "Belal Muhammad", some (mkRat 5 2)⟩]⟩
      ⟨some "Leon Edwards", some (mkRat 3 2)⟩
      ⟨some "Belal Muhammad", some (mkRat 5 2)⟩
      rfl rfl rfl rfl
  rw [hdf]
  simp [hlen]

lemma loopEvents_frames_eq (test : Bool) (pf : String → Except PyErr EventPage) :
    ∀ (evs : List DiscEvent) (i : Nat),
      (loopEvents test pf i evs).1
        = (if test then evs.take (2 - i) else evs).filterMap
            (fun e => attachMeta e (scrape_event_odds_page e.url (pf e.url))) := by
  intro evs
  induction evs with
  | nil => intro i; cases test <;> simp [loopEvents]
  | cons e es ih =>
    intro i
    unfold loopEvents
    cases test
    · rw [if_neg (fun hc => nomatch hc.1)]
      simp only [Bool.false_eq_true, if_false]
      cases hm : attachMeta e (scrape_event_odds_page e.url (pf e.url)) <;>
        simp [hm, ih (i + 1)]
    · by_cases hi : 2 ≤ i
      · rw [if_pos ⟨rfl, hi⟩]
        simp [Nat.sub_eq_zero_of_le hi]
      · rw [if_neg (fun hc => hi hc.2)]
        have h2 : 2 - i = (2 - (i + 1)) + 1 := by omega
        simp only [if_true, h2, List.take_succ_cons]
        cases hm : attachMeta e (scrape_event_odds_page e.url (pf e.url)) <;>
          simp [hm, ih (i + 1)]

/-- Claim C5: in the concatenated ScrapeResult, all Live-API rows precede
all page-scrape rows; among page-scrape rows the events appear in discovery
order (capped at two in test mode), each source's internal row order is
preserved, and every row then receives the run timestamp. -/
theorem claim_C5_row_order (test apiKey : Bool)
    (apiFetch : Except PyErr (List ApiEvent))
    (pf : String → Except PyErr EventPage) (evs : List DiscEvent)
    (t : Nat) (df : DF)
    (h : scrape_all_event_odds test apiKey apiFetch pf (some evs) t = some df) :
    df.rows = (specApiRows apiKey apiFetch ++ specPageRows test pf evs).map
      (setKey "timestamp" (Val.t t)) := by
  unfold scrape_all_event_odds at h
  match evs, h with
  | e :: es, h =>
    have hloop : (loopEvents test pf 0 (e :: es)).1
        = (specConsidered test (e :: es)).filterMap
            (fun ev => attachMeta ev
              (scrape_event_odds_page ev.url (pf ev.url))) := by
      rw [loopEvents_frames_eq]
      rfl
    have hflat : ((stagedFrames test apiKey apiFetch pf (e :: es)).map
          DF.rows).flatten
        = specApiRows apiKey apiFetch ++ specPageRows test pf (e :: es) := by
      unfold stagedFrames specApiRows specPageRows
      rw [List.map_append, List.flatten_append, hloop]
      congr 1
      cases apiKey
      · simp
      · cases hA : scrape_from_odds_api apiFetch <;> simp [hA]
    dsimp only at h
    split at h
    · rename_i hempty
      cases h
      have hnil : specApiRows apiKey apiFetch
          ++ specPageRows test pf (e :: es) = [] := by
        rw [← hflat, hempty]
        rfl
      rw [hnil]
      rfl
    · rename_i hne
      cases h
      show ((stagedFrames test apiKey apiFetch pf (e :: es)).map
          DF.rows).flatten.map (setKey "timestamp" (Val.t t)) = _
      rw [hflat]

/-- Witness for claim C5 on a concrete one-event, one-row run. -/
theorem claim_C5_witness :
    (⟨pageRunCols,
      [[("event", Val.s "Main Event"), ("fighter1", Val.s "X"),
        ("fighter2", Val.s "Y"), ("fighter1_odds", Val.q (mkRat 5 2)),
        ("fighter2_odds", Val.q 1), ("result", Val.s ""),
        ("link", Val.s "http-y"), ("date", Val.s "20 Jul 25"),
        ("timestamp", Val.t 7)]]⟩ : DF).rows
      = ((specApiRows false (Except.error ⟨"no api"⟩)
          ++ specPageRows false
              (fun _ => Except.ok ⟨[⟨["X", "Y"], ["2.5"]⟩], [],
                some "Main Event"⟩)
              [⟨"20 Jul 25", "Ev2", "http-y"⟩]).map
          (setKey "timestamp" (Val.t 7))) :=
  claim_C5_row_order false false (Except.error ⟨"no api"⟩)
    (fun _ => Except.ok ⟨[⟨["X", "Y"], ["2.5"]⟩], [], some "Main Event"⟩)
    [⟨"20 Jul 25", "Ev2", "http-y"⟩] 7
    ⟨pageRunCols,
      [[("event", Val.s "Main Event"), ("fighter1", Val.s "X"),
        ("fighter2", Val.s "Y"), ("fighter1_odds", Val.q (mkRat 5 2)),
        ("fighter2_odds", Val.q 1), ("result", Val.s ""),
        ("link", Val.s "http-y"), ("date", Val.s "20 Jul 25"),
        ("timestamp", Val.t 7)]]⟩ (by decide)
